import Mathlib

/-!
Verification of `make_status.py` (GitHub status-dashboard snapshot generator).

The script is embedded shallowly:

* JSON values (the results of `resp.json()` and the Python dicts the script
  builds) are modelled by the inductive type `JValue`; Python `None` is
  `JValue.null`.
* Python exceptions (`KeyError`, `IndexError`, `TypeError`, `AttributeError`,
  `ValueError`) are modelled by `Except PyErr`.
* The network is modelled as an oracle: each fetch function receives the
  `Response` (status code plus decoded JSON body) that the corresponding
  HTTP request would have produced.  `fetch_disabled_inactive_workflows`
  receives the list of page responses in order; if the script would request
  a page beyond the ones supplied, the model signals
  `PyErr.modelOutOfResponses` (the real loop would simply issue another
  request, so every theorem supplies enough pages).
* `requests.Session` construction (`build_session`) has no observable effect
  on the data flow and is therefore not modelled.
-/

set_option linter.unusedVariables false

/-- Python exceptions that the script can raise, plus one marker used when the
network oracle runs out of workflow pages. -/
inductive PyErr where
  | keyError
  | indexError
  | typeError
  | attributeError
  | valueError
  | modelOutOfResponses
deriving Repr, DecidableEq

/-- Decoded JSON values (also used for Python dicts/lists built by the
script); Python `None` is `null`. Objects are ordered key/value lists, as
Python dicts preserve insertion order. -/
inductive JValue where
  | null
  | bool (b : Bool)
  | num (n : Int)
  | str (s : String)
  | arr (xs : List JValue)
  | obj (fields : List (String × JValue))
deriving Repr

mutual
/-- Structural equality test for `JValue` (deriving cannot handle the nested
inductive, so it is written out). -/
def JValue.beq : JValue → JValue → Bool
  | .null, .null => true
  | .bool x, .bool y => x == y
  | .num x, .num y => x == y
  | .str x, .str y => x == y
  | .arr xs, .arr ys => beqJList xs ys
  | .obj fs, .obj gs => beqJFields fs gs
  | _, _ => false

def beqJList : List JValue → List JValue → Bool
  | [], [] => true
  | x :: xs, y :: ys => JValue.beq x y && beqJList xs ys
  | _, _ => false

def beqJFields : List (String × JValue) → List (String × JValue) → Bool
  | [], [] => true
  | (k1, v1) :: xs, (k2, v2) :: ys => k1 == k2 && JValue.beq v1 v2 && beqJFields xs ys
  | _, _ => false
end

mutual
theorem JValue.beq_iff_eq : ∀ a b : JValue, (JValue.beq a b = true) ↔ a = b
  | .null, .null => by simp [JValue.beq]
  | .bool x, .bool y => by simp [JValue.beq]
  | .num x, .num y => by simp [JValue.beq]
  | .str x, .str y => by simp [JValue.beq]
  | .arr xs, .arr ys => by simp [JValue.beq, beqJList_iff_eq xs ys]
  | .obj fs, .obj gs => by simp [JValue.beq, beqJFields_iff_eq fs gs]
  | .null, .bool _ | .null, .num _ | .null, .str _ | .null, .arr _ | .null, .obj _
  | .bool _, .null | .bool _, .num _ | .bool _, .str _ | .bool _, .arr _ | .bool _, .obj _
  | .num _, .null | .num _, .bool _ | .num _, .str _ | .num _, .arr _ | .num _, .obj _
  | .str _, .null | .str _, .bool _ | .str _, .num _ | .str _, .arr _ | .str _, .obj _
  | .arr _, .null | .arr _, .bool _ | .arr _, .num _ | .arr _, .str _ | .arr _, .obj _
  | .obj _, .null | .obj _, .bool _ | .obj _, .num _ | .obj _, .str _ | .obj _, .arr _ =>
    by simp [JValue.beq]

theorem beqJList_iff_eq : ∀ a b : List JValue, (beqJList a b = true) ↔ a = b
  | [], [] => by simp [beqJList]
  | [], _ :: _ => by simp [beqJList]
  | _ :: _, [] => by simp [beqJList]
  | x :: xs, y :: ys => by
    simp [beqJList, JValue.beq_iff_eq x y, beqJList_iff_eq xs ys]

theorem beqJFields_iff_eq : ∀ a b : List (String × JValue), (beqJFields a b = true) ↔ a = b
  | [], [] => by simp [beqJFields]
  | [], _ :: _ => by simp [beqJFields]
  | _ :: _, [] => by simp [beqJFields]
  | (k1, v1) :: xs, (k2, v2) :: ys => by
    simp [beqJFields, JValue.beq_iff_eq v1 v2, beqJFields_iff_eq xs ys, and_assoc]
end

instance : DecidableEq JValue := fun a b => decidable_of_iff _ (JValue.beq_iff_eq a b)

/-- Python truthiness (`bool(v)`) for the modelled values. -/
def JValue.truthy : JValue → Bool
  | .null => false
  | .bool b => b
  | .num n => n != 0
  | .str s => !s.isEmpty
  | .arr xs => !xs.isEmpty
  | .obj fs => !fs.isEmpty

/-- Python `a or b` (on the modelled values): `a` if truthy, else `b`. -/
def pyOr (a b : JValue) : JValue := if a.truthy then a else b

/-- First value stored under key `k` (Python dict lookup order). -/
def lookupJ (k : String) : List (String × JValue) → Option JValue
  | [] => none
  | (k2, v) :: rest => if k2 = k then some v else lookupJ k rest

/-- Python `d[k] = v`: replace the value at the first occurrence of `k`,
keeping its position, or append `(k, v)` if the key is absent. -/
def dictSet : List (String × JValue) → String → JValue → List (String × JValue)
  | [], k, v => [(k, v)]
  | (k2, v2) :: rest, k, v =>
    if k2 = k then (k2, v) :: rest else (k2, v2) :: dictSet rest k v

/-- Python `d[k]` on a dict: the stored value, or `KeyError`. -/
def dictGetItem (d : List (String × JValue)) (k : String) : Except PyErr JValue :=
  match lookupJ k d with
  | some v => .ok v
  | none => .error .keyError

/-- Python `v.get(k, default)`: only dicts have `.get`; a missing key yields
the default. -/
def JValue.pyGetD (v : JValue) (k : String) (d : JValue) : Except PyErr JValue :=
  match v with
  | .obj fs => .ok ((lookupJ k fs).getD d)
  | _ => .error .attributeError

/-- Python `v.get(k)` (default `None`). -/
def JValue.pyGet (v : JValue) (k : String) : Except PyErr JValue := v.pyGetD k .null

/-- Python `v[0]`: head of a list (`IndexError` when empty), first character
of a string, key lookup `0` on a dict (`KeyError`: the script only builds
string keys), `TypeError` otherwise. -/
def pyIndexZero : JValue → Except PyErr JValue
  | .arr [] => .error .indexError
  | .arr (x :: _) => .ok x
  | .obj _ => .error .keyError
  | .str s =>
    match s.data with
    | [] => .error .indexError
    | c :: _ => .ok (.str (String.mk [c]))
  | _ => .error .typeError

/-- Character-list model of Python `s.lower()` (ASCII case folding; the
state tokens the script compares are ASCII).  Written over `s.data` because
`String.toLower` does not reduce in the kernel. -/
def pyLowerStr (s : String) : String := String.mk (s.data.map Char.toLower)

/-- Python `v.lower()`: only strings have `.lower`. -/
def pyLower : JValue → Except PyErr String
  | .str s => .ok (pyLowerStr s)
  | _ => .error .attributeError

/-- Splitting a character list on a separator character, Python
`str.split(sep)` semantics: every occurrence splits, empty chunks kept. -/
def splitCharList (sep : Char) : List Char → List (List Char)
  | [] => [[]]
  | c :: rest =>
    match splitCharList sep rest with
    | [] => [[]]
    | g :: gs => if c = sep then [] :: g :: gs else (c :: g) :: gs

/-- Python `s.split("/")` (modelled over `s.data`; Lean's `String.splitOn`
does not reduce in the kernel). -/
def pySplit (s : String) (sep : Char) : List String :=
  (splitCharList sep s.data).map String.mk

mutual
/-- Python `repr(v)` for the modelled JSON values (no escaping of quotes
inside strings; the script only ever applies `str` to workflow ids). -/
def pyRepr : JValue → String
  | .null => "None"
  | .bool b => cond b "True" "False"
  | .num n => toString n
  | .str s => "\x27" ++ s ++ "\x27"
  | .arr xs => "[" ++ pyReprList xs ++ "]"
  | .obj fs => "\x7b" ++ pyReprFields fs ++ "\x7d"

def pyReprList : List JValue → String
  | [] => ""
  | [x] => pyRepr x
  | x :: xs => pyRepr x ++ ", " ++ pyReprList xs

def pyReprFields : List (String × JValue) → String
  | [] => ""
  | [(k, v)] => pyRepr (.str k) ++ ": " ++ pyRepr v
  | (k, v) :: fs => pyRepr (.str k) ++ ": " ++ pyRepr v ++ ", " ++ pyReprFields fs
end

/-- Python `str(v)`: identity on strings, `repr` otherwise. -/
def pyStr : JValue → String
  | .str s => s
  | v => pyRepr v

/-- An HTTP response as the script sees it: status code and decoded JSON
body (`resp.json()` is assumed to succeed; no claim concerns invalid JSON). -/
structure Response where
  status_code : Nat
  body : JValue
deriving Repr, DecidableEq


/-- `requests.Response.ok`: true for status codes below 400. -/
def Response.ok (r : Response) : Bool := r.status_code < 400

example : (JValue.obj [("a", .null)]).truthy = true := by decide
example : pyOr .null (.str "x") = .str "x" := by decide
example : lookupJ "a" [("b", .null), ("a", .num 3)] = some (.num 3) := by decide
example : dictSet [("a", .null)] "a" (.num 1) = [("a", .num 1)] := by decide

/-- `format_date` (make_status.py lines 41-44):
`datetime.fromisoformat(ts.replace("Z", "+00:00")).date().isoformat()`.
For an ISO-8601 timestamp the date part is everything before the `T`
separator, which is how the parse-then-reformat round trip is modelled; a
non-string argument raises (`.replace` on a non-string). -/
def format_date (v : JValue) : Except PyErr JValue :=
  match v with
  | .str s => .ok (.str (String.mk (s.data.takeWhile (fun c => c ≠ 'T'))))
  | _ => .error .attributeError

/-- `fetch_last_commit_info` (lines 66-93): POST the GraphQL rollup query;
on a non-ok response return `None`, otherwise drill into
`data.repository.defaultBranchRef.target` (each `or {}` guarded) and build
the commit record.  `resp` is the response the oracle assigns to the
GraphQL request. -/
def fetch_last_commit_info (owner repo : String) (resp : Response) :
    Except PyErr JValue :=
  if !resp.ok then .ok .null
  else do
    let dataV ← resp.body.pyGet "data"
    let t1 ← (pyOr dataV (.obj [])).pyGet "repository"
    let repo_data := pyOr t1 (.obj [])
    let t2 ← repo_data.pyGet "defaultBranchRef"
    let branch_ref := pyOr t2 (.obj [])
    let t3 ← branch_ref.pyGet "target"
    let commit := pyOr t3 (.obj [])
    if !commit.truthy then .ok .null
    else do
      let author_block0 ← commit.pyGet "author"
      let author_block := pyOr author_block0 (.obj [])
      let userV ← author_block.pyGet "user"
      let loginV ← (pyOr userV (.obj [])).pyGet "login"
      let nameV ← author_block.pyGet "name"
      let author := pyOr loginV nameV
      let committed_date ← commit.pyGet "committedDate"
      let rollup0 ← commit.pyGet "statusCheckRollup"
      let status_rollup ← (pyOr rollup0 (.obj [])).pyGet "state"
      let url ← commit.pyGet "commitUrl"
      let oid ← commit.pyGet "oid"
      let dateV ← if committed_date.truthy then format_date committed_date else .ok .null
      .ok (.obj [("url", url), ("date", dateV), ("author", author),
        ("status", status_rollup), ("sha", oid)])

/-- `fetch_repo_info` (lines 96-112): GET `/repos/{owner}/{repo}`; a 404
returns `None`, any other response is parsed as JSON and packed into the
seven-field metadata record. -/
def fetch_repo_info (owner repo : String) (resp : Response) :
    Except PyErr JValue :=
  if resp.status_code == 404 then .ok .null
  else do
    let info := resp.body
    let created_at ← info.pyGet "created_at"
    let updated_at ← info.pyGet "updated_at"
    let open_issues ← info.pyGet "open_issues_count"
    let stargazers_count ← info.pyGet "stargazers_count"
    let description ← info.pyGet "description"
    let topics ← info.pyGetD "topics" (.arr [])
    let size ← info.pyGet "size"
    .ok (.obj [("created_at", created_at), ("updated_at", updated_at),
      ("open_issues", open_issues), ("stargazers_count", stargazers_count),
      ("description", description), ("topics", topics), ("size", size)])

/-- `fetch_last_release_info` (lines 115-137): GET `/releases?per_page=1`;
404 or a falsy body yields `None`, otherwise index the body at 0 and build
the release record, the date preferring `published_at` over `created_at`. -/
def fetch_last_release_info (owner repo : String) (releases_resp : Response) :
    Except PyErr JValue :=
  if releases_resp.status_code == 404 then .ok .null
  else do
    let releases := releases_resp.body
    if !releases.truthy then .ok .null
    else do
      let last_release ← pyIndexZero releases
      let pub ← last_release.pyGet "published_at"
      let cre ← last_release.pyGet "created_at"
      let published_at := pyOr pub cre
      let url ← last_release.pyGet "html_url"
      let tag_name ← last_release.pyGet "tag_name"
      let dateV ← if published_at.truthy then format_date published_at else .ok .null
      .ok (.obj [("url", url), ("tag_name", tag_name), ("date", dateV)])

/-- Body of the `for workflow in workflows` loop of
`fetch_disabled_inactive_workflows` (lines 159-165): append the label of
every workflow whose state is `disabled_inactivity` (case-insensitively),
the label being its name, else its path, else `str` of its id; a workflow
with a falsy label is skipped. -/
def collect_disabled : List JValue → List JValue → Except PyErr (List JValue)
  | [], disabled => .ok disabled
  | workflow :: rest, disabled => do
    let stateV ← workflow.pyGet "state"
    let lowered ← pyLower (pyOr stateV (.str ""))
    if lowered == "disabled_inactivity" then do
      let nameV ← workflow.pyGet "name"
      let pathV ← workflow.pyGet "path"
      let idV ← workflow.pyGet "id"
      let label := pyOr (pyOr nameV pathV) (.str (pyStr (pyOr idV (.str ""))))
      collect_disabled rest (if label.truthy then disabled ++ [label] else disabled)
    else
      collect_disabled rest disabled

/-- The `while True` pagination loop of `fetch_disabled_inactive_workflows`
(lines 146-169), one list element per page response: stop (returning the
accumulator) on 403/404 or any non-ok response; otherwise scan the page's
`workflows` list and stop after the first page shorter than 100 entries.
Iterating a truthy non-list `workflows` value raises in Python; the model
reports `typeError`. -/
def fetch_disabled_pages : List Response → List JValue → Except PyErr (List JValue)
  | [], _ => .error .modelOutOfResponses
  | resp :: rest, disabled =>
    if resp.status_code == 403 || resp.status_code == 404 then .ok disabled
    else if !resp.ok then .ok disabled
    else do
      let dataV := pyOr resp.body (.obj [])
      let wsV ← dataV.pyGet "workflows"
      match pyOr wsV (.arr []) with
      | .arr workflows => do
        let disabled2 ← collect_disabled workflows disabled
        if workflows.length < 100 then .ok disabled2
        else fetch_disabled_pages rest disabled2
      | _ => .error .typeError

/-- `fetch_disabled_inactive_workflows` (lines 140-169): run the pagination
loop starting from page 1 with an empty accumulator.  `pages` is the list
of responses the oracle assigns to pages 1, 2, ... in order. -/
def fetch_disabled_inactive_workflows (owner repo : String)
    (pages : List Response) : Except PyErr (List JValue) :=
  fetch_disabled_pages pages []

/-- The responses the network oracle assigns to the four kinds of request
issued for one repository. -/
structure RepoNet where
  repo_info_resp : Response
  commit_resp : Response
  release_resp : Response
  workflow_pages : List Response

/-- The in-place dict writes of `process_package` (lines 179-201), gathered
into one pure function: the writes only touch `package` and none of the
fetches reads it, so they commute with the later fetches.  `repo_info`
truthy stores the record, falsy (the 404 `None`) sets `error = True`; the
other three fields are stored only when truthy / non-empty. -/
def enrich (package : List (String × JValue)) (repo_info last_commit_info
    last_release_info : JValue) (disabled_workflows : List JValue) :
    List (String × JValue) :=
  let p1 := if repo_info.truthy then dictSet package "repo_info" repo_info
    else dictSet package "error" (.bool true)
  let p2 := if last_commit_info.truthy then dictSet p1 "last_commit" last_commit_info
    else p1
  let p3 := if last_release_info.truthy then dictSet p2 "last_release" last_release_info
    else p2
  if disabled_workflows.isEmpty then p3
  else dictSet p3 "disabled_workflows" (.arr disabled_workflows)

/-- `process_package` (lines 172-201): split the `repo` field on `/` into
exactly `user` and `name` (a different number of parts raises `ValueError`,
a non-string `repo` has no `.split`), then run the four fetches in order —
a raising fetch propagates — and apply the dict writes (`enrich`).
`build_session` has no observable effect and is not modelled. -/
def process_package (net : String → String → RepoNet)
    (package : List (String × JValue)) :
    Except PyErr (List (String × JValue)) :=
  match dictGetItem package "repo" with
  | .error e => .error e
  | .ok (.str repoStr) =>
    match pySplit repoStr '/' with
    | [user, name] =>
      let package1 := dictSet (dictSet package "user" (.str user)) "name" (.str name)
      match fetch_repo_info user name (net user name).repo_info_resp with
      | .error e => .error e
      | .ok repo_info =>
        match fetch_last_commit_info user name (net user name).commit_resp with
        | .error e => .error e
        | .ok last_commit_info =>
          match fetch_last_release_info user name (net user name).release_resp with
          | .error e => .error e
          | .ok last_release_info =>
            match fetch_disabled_inactive_workflows user name (net user name).workflow_pages with
            | .error e => .error e
            | .ok disabled_workflows =>
              .ok (enrich package1 repo_info last_commit_info last_release_info
                disabled_workflows)
    | _ => .error .valueError
  | .ok _ => .error .attributeError

/-- A package entry of the configuration tree handed to a worker: indexing a
non-dict with the string key `"repo"` raises `TypeError`. -/
def processPackageValue (net : String → String → RepoNet) :
    JValue → Except PyErr JValue
  | .obj fs =>
    match process_package net fs with
    | .error e => .error e
    | .ok fs2 => .ok (.obj fs2)
  | _ => .error .typeError

/-- Effectful map over a list that stops at the first error — the semantics
of submitting one task per package and re-raising the first worker
exception (lines 208-212): the run succeeds only if every task does. -/
def mapExcept (f : JValue → Except PyErr JValue) :
    List JValue → Except PyErr (List JValue)
  | [] => .ok []
  | x :: xs =>
    match f x with
    | .error e => .error e
    | .ok y =>
      match mapExcept f xs with
      | .error e => .error e
      | .ok ys => .ok (y :: ys)

/-- One section of the configuration: `section["packages"]` must exist
(lines 204-206) and hold the list of packages, each processed by a worker;
the section dict reappears in the snapshot with its packages enriched in
place. -/
def processSection (net : String → String → RepoNet) :
    JValue → Except PyErr JValue
  | .obj fs =>
    match dictGetItem fs "packages" with
    | .error e => .error e
    | .ok (.arr pkgs) =>
      match mapExcept (processPackageValue net) pkgs with
      | .error e => .error e
      | .ok pkgs2 => .ok (.obj (dictSet fs "packages" (.arr pkgs2)))
    | .ok _ => .error .typeError
  | _ => .error .typeError

/-- The whole run (lines 204-220): process every package of every section
(any worker exception aborts the run before anything is written) and build
the snapshot `{generated_at, sections}`.  `generated_at` — the wall-clock
`datetime.utcnow().isoformat() + "Z"` — is a parameter. -/
def run_status (net : String → String → RepoNet) (generated_at : String)
    (config : List JValue) : Except PyErr JValue :=
  match mapExcept (processSection net) config with
  | .error e => .error e
  | .ok sections =>
    .ok (.obj [("generated_at", .str generated_at), ("sections", .arr sections)])

/-- `dictSet` stores the value under the key. -/
theorem lookupJ_dictSet_self (d : List (String × JValue)) (k : String) (v : JValue) :
    lookupJ k (dictSet d k v) = some v := by
  induction d with
  | nil => simp [dictSet, lookupJ]
  | cons p rest ih =>
    obtain ⟨k2, v2⟩ := p
    by_cases h : k2 = k
    · simp [dictSet, h, lookupJ]
    · simp [dictSet, h, lookupJ, ih]

/-- `dictSet` does not touch other keys. -/
theorem lookupJ_dictSet_ne {k' k : String} (h : k' ≠ k)
    (d : List (String × JValue)) (v : JValue) :
    lookupJ k' (dictSet d k v) = lookupJ k' d := by
  induction d with
  | nil => simp [dictSet, lookupJ, Ne.symm h]
  | cons p rest ih =>
    obtain ⟨k2, v2⟩ := p
    by_cases h2 : k2 = k
    · subst h2
      simp [dictSet, lookupJ, Ne.symm h]
    · by_cases h3 : k2 = k'
      · simp [dictSet, h2, lookupJ, h3, h]
      · simp [dictSet, h2, lookupJ, h3, ih]

/-- `dictSet` never removes a key. -/
theorem isSome_lookupJ_dictSet {d : List (String × JValue)} {k' : String}
    (k : String) (v : JValue) (h : (lookupJ k' d).isSome) :
    (lookupJ k' (dictSet d k v)).isSome := by
  by_cases hk : k' = k
  · subst hk; simp [lookupJ_dictSet_self]
  · rwa [lookupJ_dictSet_ne hk]

/-- Every stored pair makes its key present. -/
theorem isSome_lookupJ_of_mem {d : List (String × JValue)} {k : String} {v : JValue}
    (h : (k, v) ∈ d) : (lookupJ k d).isSome := by
  induction d with
  | nil => cases h
  | cons p rest ih =>
    obtain ⟨k2, v2⟩ := p
    rcases List.mem_cons.mp h with h1 | h2
    · cases h1; simp [lookupJ]
    · by_cases hk : k2 = k
      · simp [lookupJ, hk]
      · simp [lookupJ, hk, ih h2]

theorem isSome_lookupJ_enrich {d : List (String × JValue)} {k : String}
    (ri ci li : JValue) (dw : List JValue) (h : (lookupJ k d).isSome) :
    (lookupJ k (enrich d ri ci li dw)).isSome := by
  simp only [enrich]
  split <;> split <;> split <;> split <;>
    (repeat apply isSome_lookupJ_dictSet) <;> exact h

theorem lookupJ_enrich_other (d : List (String × JValue)) (ri ci li : JValue)
    (dw : List JValue) {k : String}
    (h1 : k ≠ "repo_info") (h2 : k ≠ "error") (h3 : k ≠ "last_commit")
    (h4 : k ≠ "last_release") (h5 : k ≠ "disabled_workflows") :
    lookupJ k (enrich d ri ci li dw) = lookupJ k d := by
  simp only [enrich]
  split <;> split <;> split <;> split <;>
    simp only [lookupJ_dictSet_ne h1, lookupJ_dictSet_ne h2, lookupJ_dictSet_ne h3,
      lookupJ_dictSet_ne h4, lookupJ_dictSet_ne h5]

theorem lookupJ_enrich_repo_info (d : List (String × JValue)) (ri ci li : JValue)
    (dw : List JValue) :
    lookupJ "repo_info" (enrich d ri ci li dw)
      = if ri.truthy then some ri else lookupJ "repo_info" d := by
  have h1 : ("repo_info" : String) ≠ "last_commit" := by decide
  have h2 : ("repo_info" : String) ≠ "last_release" := by decide
  have h3 : ("repo_info" : String) ≠ "disabled_workflows" := by decide
  have h4 : ("repo_info" : String) ≠ "error" := by decide
  simp only [enrich]
  split <;> split <;> split <;> split <;>
    simp_all [lookupJ_dictSet_ne h1, lookupJ_dictSet_ne h2, lookupJ_dictSet_ne h3,
      lookupJ_dictSet_ne h4, lookupJ_dictSet_self]

theorem lookupJ_enrich_error (d : List (String × JValue)) (ri ci li : JValue)
    (dw : List JValue) :
    lookupJ "error" (enrich d ri ci li dw)
      = if ri.truthy then lookupJ "error" d else some (.bool true) := by
  have h1 : ("error" : String) ≠ "last_commit" := by decide
  have h2 : ("error" : String) ≠ "last_release" := by decide
  have h3 : ("error" : String) ≠ "disabled_workflows" := by decide
  have h4 : ("error" : String) ≠ "repo_info" := by decide
  simp only [enrich]
  split <;> split <;> split <;> split <;>
    simp_all [lookupJ_dictSet_ne h1, lookupJ_dictSet_ne h2, lookupJ_dictSet_ne h3,
      lookupJ_dictSet_ne h4, lookupJ_dictSet_self]

theorem lookupJ_enrich_last_commit (d : List (String × JValue)) (ri ci li : JValue)
    (dw : List JValue) :
    lookupJ "last_commit" (enrich d ri ci li dw)
      = if ci.truthy then some ci else lookupJ "last_commit" d := by
  have h1 : ("last_commit" : String) ≠ "repo_info" := by decide
  have h2 : ("last_commit" : String) ≠ "error" := by decide
  have h3 : ("last_commit" : String) ≠ "last_release" := by decide
  have h4 : ("last_commit" : String) ≠ "disabled_workflows" := by decide
  simp only [enrich]
  split <;> split <;> split <;> split <;>
    simp_all [lookupJ_dictSet_ne h1, lookupJ_dictSet_ne h2, lookupJ_dictSet_ne h3,
      lookupJ_dictSet_ne h4, lookupJ_dictSet_self]

theorem lookupJ_enrich_last_release (d : List (String × JValue)) (ri ci li : JValue)
    (dw : List JValue) :
    lookupJ "last_release" (enrich d ri ci li dw)
      = if li.truthy then some li else lookupJ "last_release" d := by
  have h1 : ("last_release" : String) ≠ "repo_info" := by decide
  have h2 : ("last_release" : String) ≠ "error" := by decide
  have h3 : ("last_release" : String) ≠ "last_commit" := by decide
  have h4 : ("last_release" : String) ≠ "disabled_workflows" := by decide
  simp only [enrich]
  split <;> split <;> split <;> split <;>
    simp_all [lookupJ_dictSet_ne h1, lookupJ_dictSet_ne h2, lookupJ_dictSet_ne h3,
      lookupJ_dictSet_ne h4, lookupJ_dictSet_self]

theorem lookupJ_enrich_disabled (d : List (String × JValue)) (ri ci li : JValue)
    (dw : List JValue) :
    lookupJ "disabled_workflows" (enrich d ri ci li dw)
      = if dw.isEmpty then lookupJ "disabled_workflows" d else some (.arr dw) := by
  have h1 : ("disabled_workflows" : String) ≠ "repo_info" := by decide
  have h2 : ("disabled_workflows" : String) ≠ "error" := by decide
  have h3 : ("disabled_workflows" : String) ≠ "last_commit" := by decide
  have h4 : ("disabled_workflows" : String) ≠ "last_release" := by decide
  simp only [enrich]
  split <;> split <;> split <;> split <;>
    simp_all [lookupJ_dictSet_ne h1, lookupJ_dictSet_ne h2, lookupJ_dictSet_ne h3,
      lookupJ_dictSet_ne h4, lookupJ_dictSet_self]

/-- Anatomy of a successful `process_package` run: the `repo` field is a
string splitting into exactly `user` and `name`, all four fetches returned
without raising, and the output is the input enriched in place. -/
theorem process_package_ok_elim {net : String → String → RepoNet}
    {pkg out : List (String × JValue)}
    (h : process_package net pkg = .ok out) :
    ∃ s user name ri ci li dw,
      dictGetItem pkg "repo" = .ok (.str s) ∧
      pySplit s '/' = [user, name] ∧
      fetch_repo_info user name (net user name).repo_info_resp = .ok ri ∧
      fetch_last_commit_info user name (net user name).commit_resp = .ok ci ∧
      fetch_last_release_info user name (net user name).release_resp = .ok li ∧
      fetch_disabled_inactive_workflows user name (net user name).workflow_pages = .ok dw ∧
      out = enrich (dictSet (dictSet pkg "user" (.str user)) "name" (.str name))
        ri ci li dw := by
  unfold process_package at h
  split at h <;> try simp at h
  split at h <;> try simp at h
  split at h <;> try simp at h
  split at h <;> try simp at h
  split at h <;> try simp at h
  split at h <;> try simp at h
  rename_i x5 repoStr heq5 x4 user name heq4 x3 ri heq3 x2 ci heq2 x1 li heq1 x0 dw heq0
  exact ⟨repoStr, user, name, ri, ci, li, dw, heq5, heq4, heq3, heq2, heq1, heq0, h.symm⟩

@[simp] theorem except_bind_ok {α β : Type} (a : α) (f : α → Except PyErr β) :
    (Except.ok a >>= f) = f a := rfl

@[simp] theorem except_bind_error {α β : Type} (e : PyErr) (f : α → Except PyErr β) :
    ((Except.error e : Except PyErr α) >>= f) = Except.error e := rfl

/-- A successful `fetch_repo_info` call returns `None` exactly on 404 and
otherwise the (always truthy) seven-field record. -/
theorem fetch_repo_info_ok_cases {user name : String} {resp : Response} {v : JValue}
    (h : fetch_repo_info user name resp = .ok v) :
    (resp.status_code = 404 ∧ v = .null) ∨
      (resp.status_code ≠ 404 ∧ v.truthy = true) := by
  unfold fetch_repo_info at h
  by_cases h404 : resp.status_code = 404
  · left
    simp [h404] at h
    exact ⟨h404, h.symm⟩
  · right
    refine ⟨h404, ?_⟩
    simp [h404] at h
    cases b : resp.body <;>
      simp [b, JValue.pyGet, JValue.pyGetD] at h
    subst h
    rfl

/-- C1: after a successful aggregation of a descriptor that did not already
carry `error` or `repo_info` fields, `error = True` is present exactly when
the repo-info fetch returned 404, `repo_info` is present exactly when it
did not, and the two are never present together. -/
theorem C1_error_iff_not_found {net : String → String → RepoNet}
    {pkg out : List (String × JValue)} {s user name : String}
    (hrepo : lookupJ "repo" pkg = some (.str s))
    (hsplit : pySplit s '/' = [user, name])
    (herr : lookupJ "error" pkg = none)
    (hri : lookupJ "repo_info" pkg = none)
    (h : process_package net pkg = .ok out) :
    ((lookupJ "error" out = some (.bool true))
        ↔ (net user name).repo_info_resp.status_code = 404) ∧
    ((lookupJ "repo_info" out).isSome
        ↔ (net user name).repo_info_resp.status_code ≠ 404) ∧
    ¬((lookupJ "error" out = some (.bool true)) ∧ (lookupJ "repo_info" out).isSome) := by
  obtain ⟨s2, u2, n2, ri, ci, li, dw, h1, h2, h3, h4, h5, h6, hout⟩ :=
    process_package_ok_elim h
  rw [dictGetItem, hrepo] at h1
  simp only [Except.ok.injEq, JValue.str.injEq] at h1
  subst h1
  rw [hsplit] at h2
  simp only [List.cons.injEq, and_true] at h2
  obtain ⟨hu, hn⟩ := h2
  subst hu; subst hn
  have heb : lookupJ "error"
      (dictSet (dictSet pkg "user" (.str user)) "name" (.str name)) = none := by
    rw [lookupJ_dictSet_ne (by decide), lookupJ_dictSet_ne (by decide)]
    exact herr
  have hrb : lookupJ "repo_info"
      (dictSet (dictSet pkg "user" (.str user)) "name" (.str name)) = none := by
    rw [lookupJ_dictSet_ne (by decide), lookupJ_dictSet_ne (by decide)]
    exact hri
  rcases fetch_repo_info_ok_cases h3 with ⟨h404, hnull⟩ | ⟨h404, htr⟩
  · subst hnull
    rw [hout, lookupJ_enrich_error, lookupJ_enrich_repo_info]
    simp [JValue.truthy, h404, hrb]
  · rw [hout, lookupJ_enrich_error, lookupJ_enrich_repo_info]
    simp [htr, h404, heb]

def netC1 : String → String → RepoNet :=
  fun _ _ => ⟨⟨404, .null⟩, ⟨500, .null⟩, ⟨404, .null⟩, [⟨404, .null⟩]⟩

def pkgC1 : List (String × JValue) := [("repo", .str "ghost/repo")]

def outC1 : List (String × JValue) :=
  [("repo", .str "ghost/repo"), ("user", .str "ghost"), ("name", .str "repo"),
   ("error", .bool true)]

/-- Witness for C1: a 404 repo-info response on `"ghost/repo"` yields
`error = True`, no `repo_info`, and not both. -/
theorem C1_error_iff_not_found_witness :
    process_package netC1 pkgC1 = .ok outC1 ∧
    ((lookupJ "error" outC1 = some (.bool true))
        ↔ (netC1 "ghost" "repo").repo_info_resp.status_code = 404) ∧
    ((lookupJ "repo_info" outC1).isSome
        ↔ (netC1 "ghost" "repo").repo_info_resp.status_code ≠ 404) :=
  have h : process_package netC1 pkgC1 = .ok outC1 := by rfl
  ⟨h, (C1_error_iff_not_found (by rfl) (by rfl) (by rfl) (by rfl) h).1,
    (C1_error_iff_not_found (by rfl) (by rfl) (by rfl) (by rfl) h).2.1⟩

/-- C4: a successful aggregation of a clean descriptor ran all four fetches
(each returned a value), and each enrichment field of the output is
determined by its own fetch's outcome alone — a 404/absence in one fetch
does not prevent the others from being written. -/
theorem C4_fetches_independent {net : String → String → RepoNet}
    {pkg out : List (String × JValue)} {s user name : String}
    (hrepo : lookupJ "repo" pkg = some (.str s))
    (hsplit : pySplit s '/' = [user, name])
    (h1 : lookupJ "repo_info" pkg = none) (h2 : lookupJ "error" pkg = none)
    (h3 : lookupJ "last_commit" pkg = none) (h4 : lookupJ "last_release" pkg = none)
    (h5 : lookupJ "disabled_workflows" pkg = none)
    (h : process_package net pkg = .ok out) :
    ∃ ri ci li dw,
      fetch_repo_info user name (net user name).repo_info_resp = .ok ri ∧
      fetch_last_commit_info user name (net user name).commit_resp = .ok ci ∧
      fetch_last_release_info user name (net user name).release_resp = .ok li ∧
      fetch_disabled_inactive_workflows user name (net user name).workflow_pages
        = .ok dw ∧
      lookupJ "repo_info" out = (if ri.truthy then some ri else none) ∧
      lookupJ "error" out = (if ri.truthy then none else some (.bool true)) ∧
      lookupJ "last_commit" out = (if ci.truthy then some ci else none) ∧
      lookupJ "last_release" out = (if li.truthy then some li else none) ∧
      lookupJ "disabled_workflows" out
        = (if dw.isEmpty then none else some (.arr dw)) := by
  obtain ⟨s2, u2, n2, ri, ci, li, dw, e1, e2, e3, e4, e5, e6, hout⟩ :=
    process_package_ok_elim h
  rw [dictGetItem, hrepo] at e1
  simp only [Except.ok.injEq, JValue.str.injEq] at e1
  subst e1
  rw [hsplit] at e2
  simp only [List.cons.injEq, and_true] at e2
  obtain ⟨hu, hn⟩ := e2
  subst hu; subst hn
  have base : ∀ k : String, k ≠ "user" → k ≠ "name" → lookupJ k pkg = none →
      lookupJ k (dictSet (dictSet pkg "user" (.str user)) "name" (.str name)) = none := by
    intro k hku hkn hk
    rw [lookupJ_dictSet_ne hkn, lookupJ_dictSet_ne hku]
    exact hk
  refine ⟨ri, ci, li, dw, e3, e4, e5, e6, ?_, ?_, ?_, ?_, ?_⟩
  · rw [hout, lookupJ_enrich_repo_info, base _ (by decide) (by decide) h1]
  · rw [hout, lookupJ_enrich_error, base _ (by decide) (by decide) h2]
  · rw [hout, lookupJ_enrich_last_commit, base _ (by decide) (by decide) h3]
  · rw [hout, lookupJ_enrich_last_release, base _ (by decide) (by decide) h4]
  · rw [hout, lookupJ_enrich_disabled, base _ (by decide) (by decide) h5]

def netC4 : String → String → RepoNet :=
  fun _ _ =>
    ⟨⟨404, .null⟩,
     ⟨200, .obj [("data", .obj [("repository", .obj [("defaultBranchRef",
       .obj [("target", .obj [("oid", .str "abc"), ("commitUrl", .str "cu"),
         ("committedDate", .str "2024-01-02T03:04:05Z"),
         ("author", .obj [("user", .obj [("login", .str "alice")]), ("name", .str "Alice")]),
         ("statusCheckRollup", .obj [("state", .str "SUCCESS")])])])])])]⟩,
     ⟨200, .arr [.obj [("html_url", .str "ru"), ("tag_name", .str "v1"),
       ("published_at", .str "2024-05-06T07:08:09Z"), ("created_at", .str "2024-01-01T00:00:00Z")]]⟩,
     [⟨200, .obj [("workflows", .arr [.obj [("state", .str "disabled_inactivity"),
       ("name", .str "ci")]])]⟩]⟩

def pkgC4 : List (String × JValue) := [("repo", .str "ghost/repo")]

def outC4 : List (String × JValue) :=
  [("repo", .str "ghost/repo"), ("user", .str "ghost"), ("name", .str "repo"),
   ("error", .bool true),
   ("last_commit", .obj [("url", .str "cu"), ("date", .str "2024-01-02"),
     ("author", .str "alice"), ("status", .str "SUCCESS"), ("sha", .str "abc")]),
   ("last_release", .obj [("url", .str "ru"), ("tag_name", .str "v1"),
     ("date", .str "2024-05-06")]),
   ("disabled_workflows", .arr [.str "ci"])]

/-- Witness for C4 (spec scenario A): repo-info 404 sets `error` while the
other three fields are still populated from their own fetches. -/
theorem C4_fetches_independent_witness :
    process_package netC4 pkgC4 = .ok outC4 ∧
    ∃ ri ci li dw,
      fetch_repo_info "ghost" "repo" (netC4 "ghost" "repo").repo_info_resp = .ok ri ∧
      fetch_last_commit_info "ghost" "repo" (netC4 "ghost" "repo").commit_resp = .ok ci ∧
      fetch_last_release_info "ghost" "repo" (netC4 "ghost" "repo").release_resp = .ok li ∧
      fetch_disabled_inactive_workflows "ghost" "repo"
        (netC4 "ghost" "repo").workflow_pages = .ok dw ∧
      lookupJ "repo_info" outC4 = (if ri.truthy then some ri else none) ∧
      lookupJ "error" outC4 = (if ri.truthy then none else some (.bool true)) ∧
      lookupJ "last_commit" outC4 = (if ci.truthy then some ci else none) ∧
      lookupJ "last_release" outC4 = (if li.truthy then some li else none) ∧
      lookupJ "disabled_workflows" outC4
        = (if dw.isEmpty then none else some (.arr dw)) :=
  have h : process_package netC4 pkgC4 = .ok outC4 := by rfl
  ⟨h, C4_fetches_independent (by rfl) (by rfl) (by rfl) (by rfl) (by rfl) (by rfl)
    (by rfl) h⟩

/-- The spec's notion (§4.1/§8) of a workflow entry "matching the
inactivity-disabled state": its `state`, lower-cased, equals the
`disabled_inactivity` token.  Used to state the presence-iff of
`disabled_workflows` that C6 asserts. -/
def spec_workflow_matches (w : JValue) : Bool :=
  match w.pyGet "state" with
  | .ok st =>
    match pyLower (pyOr st (.str "")) with
    | .ok l => l == "disabled_inactivity"
    | .error _ => false
  | .error _ => false

def netC6 : String → String → RepoNet :=
  fun _ _ => ⟨⟨404, .null⟩, ⟨500, .null⟩, ⟨404, .null⟩,
    [⟨200, .obj [("workflows",
      .arr [.obj [("state", .str "disabled_inactivity")]])]⟩]⟩

def pkgC6 : List (String × JValue) := [("repo", .str "a/b")]

/-- Counterexample to C6 as stated: a workflow matches the
inactivity-disabled state, yet — having no name, path or id — it yields no
label, so the fetch returns an empty list and the `disabled_workflows` key
is omitted even though a workflow matched. -/
theorem C6_counterexample :
    [JValue.obj [("state", .str "disabled_inactivity")]].any spec_workflow_matches
      = true ∧
    fetch_disabled_inactive_workflows "a" "b" (netC6 "a" "b").workflow_pages
      = .ok [] ∧
    process_package netC6 pkgC6
      = .ok [("repo", .str "a/b"), ("user", .str "a"), ("name", .str "b"),
        ("error", .bool true)] ∧
    lookupJ "disabled_workflows"
      [("repo", .str "a/b"), ("user", .str "a"), ("name", .str "b"),
        ("error", .bool true)] = none :=
  ⟨by rfl, by rfl, by rfl, by rfl⟩

/-- C6 (amended): after a successful aggregation of a clean descriptor, a
fetch that returned an absent (falsy) result leaves its key entirely
omitted — never present with `null` — and `disabled_workflows` is present
iff the fetch produced at least one non-empty label (a matched workflow
with no usable label contributes nothing); an empty label list yields key
omission, never an empty sequence. -/
theorem C6_absent_keys_omitted {net : String → String → RepoNet}
    {pkg out : List (String × JValue)} {s user name : String}
    (hrepo : lookupJ "repo" pkg = some (.str s))
    (hsplit : pySplit s '/' = [user, name])
    (h1 : lookupJ "repo_info" pkg = none) (h2 : lookupJ "error" pkg = none)
    (h3 : lookupJ "last_commit" pkg = none) (h4 : lookupJ "last_release" pkg = none)
    (h5 : lookupJ "disabled_workflows" pkg = none)
    (h : process_package net pkg = .ok out) :
    ∃ ri ci li dw,
      fetch_repo_info user name (net user name).repo_info_resp = .ok ri ∧
      fetch_last_commit_info user name (net user name).commit_resp = .ok ci ∧
      fetch_last_release_info user name (net user name).release_resp = .ok li ∧
      fetch_disabled_inactive_workflows user name (net user name).workflow_pages
        = .ok dw ∧
      (ri.truthy = false → lookupJ "repo_info" out = none) ∧
      (ci.truthy = false → lookupJ "last_commit" out = none) ∧
      (li.truthy = false → lookupJ "last_release" out = none) ∧
      ((lookupJ "disabled_workflows" out).isSome ↔ dw ≠ []) ∧
      (dw = [] → lookupJ "disabled_workflows" out = none) := by
  obtain ⟨s2, u2, n2, ri, ci, li, dw, e1, e2, e3, e4, e5, e6, hout⟩ :=
    process_package_ok_elim h
  rw [dictGetItem, hrepo] at e1
  simp only [Except.ok.injEq, JValue.str.injEq] at e1
  subst e1
  rw [hsplit] at e2
  simp only [List.cons.injEq, and_true] at e2
  obtain ⟨hu, hn⟩ := e2
  subst hu; subst hn
  have base : ∀ k : String, k ≠ "user" → k ≠ "name" → lookupJ k pkg = none →
      lookupJ k (dictSet (dictSet pkg "user" (.str user)) "name" (.str name)) = none := by
    intro k hku hkn hk
    rw [lookupJ_dictSet_ne hkn, lookupJ_dictSet_ne hku]
    exact hk
  refine ⟨ri, ci, li, dw, e3, e4, e5, e6, ?_, ?_, ?_, ?_, ?_⟩
  · intro htr
    rw [hout, lookupJ_enrich_repo_info, base _ (by decide) (by decide) h1]
    simp [htr]
  · intro htr
    rw [hout, lookupJ_enrich_last_commit, base _ (by decide) (by decide) h3]
    simp [htr]
  · intro htr
    rw [hout, lookupJ_enrich_last_release, base _ (by decide) (by decide) h4]
    simp [htr]
  · rw [hout, lookupJ_enrich_disabled, base _ (by decide) (by decide) h5]
    cases dw <;> simp
  · intro hdw
    subst hdw
    rw [hout, lookupJ_enrich_disabled, base _ (by decide) (by decide) h5]
    simp

/-- Witness for the amended C6: same run as the counterexample — every
fetch absent, the matched-but-labelless workflow list empty, all four keys
omitted. -/
theorem C6_absent_keys_omitted_witness :
    process_package netC6 pkgC6
      = .ok [("repo", .str "a/b"), ("user", .str "a"), ("name", .str "b"),
        ("error", .bool true)] ∧
    ∃ ri ci li dw,
      fetch_repo_info "a" "b" (netC6 "a" "b").repo_info_resp = .ok ri ∧
      fetch_last_commit_info "a" "b" (netC6 "a" "b").commit_resp = .ok ci ∧
      fetch_last_release_info "a" "b" (netC6 "a" "b").release_resp = .ok li ∧
      fetch_disabled_inactive_workflows "a" "b" (netC6 "a" "b").workflow_pages
        = .ok dw ∧
      (ri.truthy = false → lookupJ "repo_info"
        [("repo", .str "a/b"), ("user", .str "a"), ("name", .str "b"),
          ("error", .bool true)] = none) ∧
      (ci.truthy = false → lookupJ "last_commit"
        [("repo", .str "a/b"), ("user", .str "a"), ("name", .str "b"),
          ("error", .bool true)] = none) ∧
      (li.truthy = false → lookupJ "last_release"
        [("repo", .str "a/b"), ("user", .str "a"), ("name", .str "b"),
          ("error", .bool true)] = none) ∧
      ((lookupJ "disabled_workflows"
        [("repo", .str "a/b"), ("user", .str "a"), ("name", .str "b"),
          ("error", .bool true)]).isSome ↔ dw ≠ []) ∧
      (dw = [] → lookupJ "disabled_workflows"
        [("repo", .str "a/b"), ("user", .str "a"), ("name", .str "b"),
          ("error", .bool true)] = none) :=
  have h : process_package netC6 pkgC6
      = .ok [("repo", .str "a/b"), ("user", .str "a"), ("name", .str "b"),
        ("error", .bool true)] := by rfl
  ⟨h, C6_absent_keys_omitted (by rfl) (by rfl) (by rfl) (by rfl) (by rfl) (by rfl)
    (by rfl) h⟩

def respC3 : Response := ⟨500, .obj [("message", .str "Internal Server Error")]⟩

def netC3 : String → String → RepoNet :=
  fun _ _ => ⟨respC3, ⟨500, .null⟩, ⟨404, .null⟩, [⟨404, .null⟩]⟩

def pkgC3 : List (String × JValue) := [("repo", .str "a/b")]

def outC3 : List (String × JValue) :=
  [("repo", .str "a/b"), ("user", .str "a"), ("name", .str "b"),
   ("repo_info", .obj [("created_at", .null), ("updated_at", .null),
     ("open_issues", .null), ("stargazers_count", .null), ("description", .null),
     ("topics", .arr []), ("size", .null)])]

/-- Counterexample to C3 as stated: a 500 repo-info response (a failure,
not ok, not 404) whose JSON body is an error object is parsed like a
success — the descriptor ends up with a populated `repo_info` record (all
fields `None`) and no `error` flag. -/
theorem C3_counterexample :
    respC3.status_code ≠ 404 ∧ respC3.ok = false ∧
    fetch_repo_info "a" "b" respC3
      = .ok (.obj [("created_at", .null), ("updated_at", .null),
        ("open_issues", .null), ("stargazers_count", .null), ("description", .null),
        ("topics", .arr []), ("size", .null)]) ∧
    process_package netC3 pkgC3 = .ok outC3 ∧
    (lookupJ "repo_info" outC3).isSome = true ∧
    lookupJ "error" outC3 = none :=
  ⟨by decide, by rfl, by rfl, by rfl, by rfl, by rfl⟩

/-- C3 (amended): only a 404 is special-cased by the repo-info fetch; any
other response — success or failure alike — is parsed as a success, so
whenever aggregation of a clean descriptor completes with a non-404
repo-info status, the descriptor carries a populated `repo_info` record and
no `error` flag. -/
theorem C3_non404_treated_as_success {net : String → String → RepoNet}
    {pkg out : List (String × JValue)} {s user name : String}
    (hrepo : lookupJ "repo" pkg = some (.str s))
    (hsplit : pySplit s '/' = [user, name])
    (herr : lookupJ "error" pkg = none)
    (hstatus : (net user name).repo_info_resp.status_code ≠ 404)
    (h : process_package net pkg = .ok out) :
    (lookupJ "repo_info" out).isSome = true ∧ lookupJ "error" out = none := by
  obtain ⟨s2, u2, n2, ri, ci, li, dw, e1, e2, e3, e4, e5, e6, hout⟩ :=
    process_package_ok_elim h
  rw [dictGetItem, hrepo] at e1
  simp only [Except.ok.injEq, JValue.str.injEq] at e1
  subst e1
  rw [hsplit] at e2
  simp only [List.cons.injEq, and_true] at e2
  obtain ⟨hu, hn⟩ := e2
  subst hu; subst hn
  rcases fetch_repo_info_ok_cases e3 with ⟨h404, _⟩ | ⟨_, htr⟩
  · exact absurd h404 hstatus
  · constructor
    · rw [hout, lookupJ_enrich_repo_info]
      simp [htr]
    · rw [hout, lookupJ_enrich_error]
      simp only [htr, if_true]
      rw [lookupJ_dictSet_ne (by decide), lookupJ_dictSet_ne (by decide)]
      exact herr

/-- Witness for the amended C3: the 500-response run of the counterexample,
through the amended theorem. -/
theorem C3_non404_treated_as_success_witness :
    process_package netC3 pkgC3 = .ok outC3 ∧
    (lookupJ "repo_info" outC3).isSome = true ∧ lookupJ "error" outC3 = none :=
  have h : process_package netC3 pkgC3 = .ok outC3 := by rfl
  ⟨h, C3_non404_treated_as_success (by rfl) (by rfl) (by rfl) (by decide) h⟩

/-- If any element of the list makes `f` raise, the whole `mapExcept` run
raises (the first raise wins, but some raise occurs). -/
theorem mapExcept_error_of_mem {f : JValue → Except PyErr JValue}
    {xs : List JValue} {x : JValue} {e : PyErr}
    (hx : x ∈ xs) (he : f x = .error e) :
    ∃ e2, mapExcept f xs = .error e2 := by
  induction xs with
  | nil => cases hx
  | cons y ys ih =>
    rcases List.mem_cons.mp hx with h1 | h2
    · subst h1
      exact ⟨e, by simp [mapExcept, he]⟩
    · cases hf : f y with
      | error e3 => exact ⟨e3, by simp [mapExcept, hf]⟩
      | ok v =>
        obtain ⟨e2, h2e⟩ := ih h2
        exact ⟨e2, by simp [mapExcept, hf, h2e]⟩

/-- A `repo` string that does not split into exactly two parts makes the
worker raise `ValueError` (the tuple unpacking on line 177). -/
theorem process_package_malformed {net : String → String → RepoNet}
    {pkg : List (String × JValue)} {s : String}
    (hrepo : lookupJ "repo" pkg = some (.str s))
    (hbad : (pySplit s '/').length ≠ 2) :
    process_package net pkg = .error .valueError := by
  unfold process_package
  rw [dictGetItem, hrepo]
  rcases hsp : pySplit s '/' with _ | ⟨a, _ | ⟨b, _ | ⟨c, rest⟩⟩⟩ <;>
    simp_all

/-- C2: an exception in any worker task aborts the whole run — no snapshot
value is produced — and in particular a descriptor whose `repo` does not
split into exactly owner and name is such an exception. -/
theorem C2_worker_fault_aborts_run {net : String → String → RepoNet}
    {t : String} {config : List JValue} :
    (∀ (fs : List (String × JValue)) (pkgs : List JValue) (p : JValue) (e : PyErr),
      (JValue.obj fs) ∈ config → lookupJ "packages" fs = some (.arr pkgs) →
      p ∈ pkgs → processPackageValue net p = .error e →
      (∃ e2, run_status net t config = .error e2) ∧
        ∀ snap, run_status net t config ≠ .ok snap) ∧
    (∀ (fs pfs : List (String × JValue)) (pkgs : List JValue) (s : String),
      (JValue.obj fs) ∈ config → lookupJ "packages" fs = some (.arr pkgs) →
      (JValue.obj pfs) ∈ pkgs → lookupJ "repo" pfs = some (.str s) →
      (pySplit s '/').length ≠ 2 →
      (∃ e2, run_status net t config = .error e2) ∧
        ∀ snap, run_status net t config ≠ .ok snap) := by
  have main : ∀ (fs : List (String × JValue)) (pkgs : List JValue) (p : JValue)
      (e : PyErr),
      (JValue.obj fs) ∈ config → lookupJ "packages" fs = some (.arr pkgs) →
      p ∈ pkgs → processPackageValue net p = .error e →
      (∃ e2, run_status net t config = .error e2) ∧
        ∀ snap, run_status net t config ≠ .ok snap := by
    intro fs pkgs p e hsec hpk hp hperr
    obtain ⟨e2, h2⟩ := mapExcept_error_of_mem hp hperr
    have hsecerr : processSection net (.obj fs) = .error e2 := by
      simp [processSection, dictGetItem, hpk, h2]
    obtain ⟨e3, h3⟩ := mapExcept_error_of_mem hsec hsecerr
    refine ⟨⟨e3, ?_⟩, ?_⟩
    · simp [run_status, h3]
    · intro snap
      simp [run_status, h3]
  refine ⟨main, ?_⟩
  intro fs pfs pkgs s hsec hpk hp hrepo hbad
  have hperr : processPackageValue net (.obj pfs) = .error .valueError := by
    simp [processPackageValue, process_package_malformed hrepo hbad]
  exact main fs pkgs (.obj pfs) .valueError hsec hpk hp hperr

def netC2 : String → String → RepoNet :=
  fun _ _ => ⟨⟨404, .null⟩, ⟨500, .null⟩, ⟨404, .null⟩, [⟨404, .null⟩]⟩

def configC2 : List JValue :=
  [.obj [("name", .str "good"), ("packages", .arr [.obj [("repo", .str "a/b")]])],
   .obj [("name", .str "bad"),
     ("packages", .arr [.obj [("repo", .str "malformed-no-slash")]])]]

/-- Witness for C2: a configuration of two sections where one descriptor's
`repo` has no separator — the whole run fails even though the other
repository's processing succeeds. -/
theorem C2_worker_fault_aborts_run_witness :
    processPackageValue netC2 (.obj [("repo", .str "a/b")])
      = .ok (.obj [("repo", .str "a/b"), ("user", .str "a"), ("name", .str "b"),
        ("error", .bool true)]) ∧
    (∃ e2, run_status netC2 "T0" configC2 = .error e2) ∧
    ∀ snap, run_status netC2 "T0" configC2 ≠ .ok snap :=
  ⟨by rfl,
    (C2_worker_fault_aborts_run.2
      [("name", .str "bad"),
        ("packages", .arr [.obj [("repo", .str "malformed-no-slash")]])]
      [("repo", .str "malformed-no-slash")]
      [.obj [("repo", .str "malformed-no-slash")]]
      "malformed-no-slash"
      (by simp [configC2]) (by rfl) (by simp) (by rfl) (by decide)).1,
    (C2_worker_fault_aborts_run.2
      [("name", .str "bad"),
        ("packages", .arr [.obj [("repo", .str "malformed-no-slash")]])]
      [("repo", .str "malformed-no-slash")]
      [.obj [("repo", .str "malformed-no-slash")]]
      "malformed-no-slash"
      (by simp [configC2]) (by rfl) (by simp) (by rfl) (by decide)).2⟩

/-- Spec-side (§8) per-descriptor check: the output descriptor still holds
every key the input had and the original `repo` value (additive-only
mutation). -/
def spec_descriptor_preserved (pin pout : JValue) : Bool :=
  match pin, pout with
  | .obj fin, .obj fout =>
    fin.all (fun p => (lookupJ p.1 fout).isSome) &&
      decide (lookupJ "repo" fout = lookupJ "repo" fin)
  | _, _ => false

/-- Spec-side: output descriptors correspond one-to-one, in order, to the
input descriptors. -/
def spec_descriptors_preserved : List JValue → List JValue → Bool
  | [], [] => true
  | pin :: rin, pout :: rout =>
    spec_descriptor_preserved pin pout && spec_descriptors_preserved rin rout
  | _, _ => false

/-- Spec-side per-section check: every non-`packages` field is unchanged
and the packages lists correspond in order. -/
def spec_section_preserved (sin sout : JValue) : Bool :=
  match sin, sout with
  | .obj fin, .obj fout =>
    (fin.all fun p =>
      p.1 == "packages" || decide (lookupJ p.1 fout = lookupJ p.1 fin)) &&
    (match lookupJ "packages" fin, lookupJ "packages" fout with
     | some (.arr pin), some (.arr pout) => spec_descriptors_preserved pin pout
     | _, _ => false)
  | _, _ => false

/-- Spec-side: output sections correspond one-to-one, in order, to the
input sections. -/
def spec_sections_preserved : List JValue → List JValue → Bool
  | [], [] => true
  | sin :: rin, sout :: rout =>
    spec_section_preserved sin sout && spec_sections_preserved rin rout
  | _, _ => false

theorem spec_sections_preserved_length {a b : List JValue}
    (h : spec_sections_preserved a b = true) : b.length = a.length := by
  induction a generalizing b with
  | nil => cases b <;> simp_all [spec_sections_preserved]
  | cons x xs ih =>
    cases b with
    | nil => simp [spec_sections_preserved] at h
    | cons y ys =>
      simp only [spec_sections_preserved, Bool.and_eq_true] at h
      simp [ih h.2]

/-- One worker's output descriptor preserves the input's keys and `repo`. -/
theorem processPackageValue_preserves {net : String → String → RepoNet}
    {p q : JValue} (h : processPackageValue net p = .ok q) :
    spec_descriptor_preserved p q = true := by
  cases p with
  | obj fs =>
    simp only [processPackageValue] at h
    cases hp : process_package net fs with
    | error e => rw [hp] at h; cases h
    | ok out =>
      rw [hp] at h
      cases h
      obtain ⟨s, u, n, ri, ci, li, dw, e1, e2, e3, e4, e5, e6, hout⟩ :=
        process_package_ok_elim hp
      subst hout
      simp only [spec_descriptor_preserved, Bool.and_eq_true, List.all_eq_true,
        decide_eq_true_eq]
      constructor
      · intro pf hmem
        obtain ⟨k, v⟩ := pf
        exact isSome_lookupJ_enrich _ _ _ _
          (isSome_lookupJ_dictSet _ _ (isSome_lookupJ_dictSet _ _
            (isSome_lookupJ_of_mem hmem)))
      · rw [lookupJ_enrich_other _ _ _ _ _ (by decide) (by decide) (by decide)
          (by decide) (by decide),
          lookupJ_dictSet_ne (by decide), lookupJ_dictSet_ne (by decide)]
  | null => simp [processPackageValue] at h
  | bool b => simp [processPackageValue] at h
  | num n => simp [processPackageValue] at h
  | str s => simp [processPackageValue] at h
  | arr xs => simp [processPackageValue] at h

theorem mapExcept_packages_preserved {net : String → String → RepoNet}
    {pkgs pkgs2 : List JValue}
    (h : mapExcept (processPackageValue net) pkgs = .ok pkgs2) :
    spec_descriptors_preserved pkgs pkgs2 = true := by
  induction pkgs generalizing pkgs2 with
  | nil =>
    simp only [mapExcept] at h
    cases h
    rfl
  | cons p rest ih =>
    simp only [mapExcept] at h
    cases hp : processPackageValue net p with
    | error e => rw [hp] at h; cases h
    | ok q =>
      rw [hp] at h
      cases hr : mapExcept (processPackageValue net) rest with
      | error e => rw [hr] at h; cases h
      | ok qs =>
        rw [hr] at h
        cases h
        simp [spec_descriptors_preserved, processPackageValue_preserves hp, ih hr]

/-- One section's output preserves its non-`packages` fields and its
descriptor list in order. -/
theorem processSection_preserves {net : String → String → RepoNet}
    {sec out : JValue} (h : processSection net sec = .ok out) :
    spec_section_preserved sec out = true := by
  cases sec with
  | obj fs =>
    cases hpk : lookupJ "packages" fs with
    | none => simp [processSection, dictGetItem, hpk] at h
    | some v =>
      cases v with
      | arr pkgs =>
        cases hm : mapExcept (processPackageValue net) pkgs with
        | error e => simp [processSection, dictGetItem, hpk, hm] at h
        | ok pkgs2 =>
          simp only [processSection, dictGetItem, hpk, hm, Except.ok.injEq] at h
          subst h
          simp only [spec_section_preserved, Bool.and_eq_true, List.all_eq_true]
          constructor
          · intro pf hmem
            by_cases hk : pf.1 = "packages"
            · simp [hk]
            · simp [hk, lookupJ_dictSet_ne hk]
          · rw [hpk, lookupJ_dictSet_self]
            exact mapExcept_packages_preserved hm
      | null => simp [processSection, dictGetItem, hpk] at h
      | bool b => simp [processSection, dictGetItem, hpk] at h
      | num n => simp [processSection, dictGetItem, hpk] at h
      | str s => simp [processSection, dictGetItem, hpk] at h
      | obj fs2 => simp [processSection, dictGetItem, hpk] at h
  | null => simp [processSection] at h
  | bool b => simp [processSection] at h
  | num n => simp [processSection] at h
  | str s => simp [processSection] at h
  | arr xs => simp [processSection] at h

theorem mapExcept_sections_preserved {net : String → String → RepoNet}
    {config sections : List JValue}
    (h : mapExcept (processSection net) config = .ok sections) :
    spec_sections_preserved config sections = true := by
  induction config generalizing sections with
  | nil =>
    simp only [mapExcept] at h
    cases h
    rfl
  | cons sec rest ih =>
    simp only [mapExcept] at h
    cases hp : processSection net sec with
    | error e => rw [hp] at h; cases h
    | ok q =>
      rw [hp] at h
      cases hr : mapExcept (processSection net) rest with
      | error e => rw [hr] at h; cases h
      | ok qs =>
        rw [hr] at h
        cases h
        simp [spec_sections_preserved, processSection_preserves hp, ih hr]

/-- C5: a successful run produces the snapshot
`{generated_at, sections}` whose sections correspond one-to-one and in
order to the input sections, each keeping its non-`packages` fields, its
descriptor order, every input descriptor key and the original `repo`
value — enrichment is additive. -/
theorem C5_order_and_fields_preserved {net : String → String → RepoNet}
    {t : String} {config : List JValue} {snap : JValue}
    (h : run_status net t config = .ok snap) :
    ∃ sections : List JValue,
      snap = .obj [("generated_at", .str t), ("sections", .arr sections)] ∧
      sections.length = config.length ∧
      spec_sections_preserved config sections = true := by
  unfold run_status at h
  cases hm : mapExcept (processSection net) config with
  | error e => rw [hm] at h; cases h
  | ok sections =>
    rw [hm] at h
    cases h
    exact ⟨sections, rfl,
      spec_sections_preserved_length (mapExcept_sections_preserved hm),
      mapExcept_sections_preserved hm⟩

def configC5 : List JValue :=
  [.obj [("name", .str "sec1"),
     ("packages", .arr [.obj [("repo", .str "ghost/repo"), ("note", .str "keep")],
       .obj [("repo", .str "a/b")]])],
   .obj [("name", .str "sec2"), ("packages", .arr [])]]

def snapC5 : JValue :=
  .obj [("generated_at", .str "2024-06-01T00:00:00Z"),
    ("sections", .arr [
      .obj [("name", .str "sec1"), ("packages", .arr [
        .obj [("repo", .str "ghost/repo"), ("note", .str "keep"),
          ("user", .str "ghost"), ("name", .str "repo"), ("error", .bool true),
          ("last_commit", .obj [("url", .str "cu"), ("date", .str "2024-01-02"),
            ("author", .str "alice"), ("status", .str "SUCCESS"),
            ("sha", .str "abc")]),
          ("last_release", .obj [("url", .str "ru"), ("tag_name", .str "v1"),
            ("date", .str "2024-05-06")]),
          ("disabled_workflows", .arr [.str "ci"])],
        .obj [("repo", .str "a/b"), ("user", .str "a"), ("name", .str "b"),
          ("error", .bool true),
          ("last_commit", .obj [("url", .str "cu"), ("date", .str "2024-01-02"),
            ("author", .str "alice"), ("status", .str "SUCCESS"),
            ("sha", .str "abc")]),
          ("last_release", .obj [("url", .str "ru"), ("tag_name", .str "v1"),
            ("date", .str "2024-05-06")]),
          ("disabled_workflows", .arr [.str "ci"])]])],
      .obj [("name", .str "sec2"), ("packages", .arr [])]])]

/-- Witness for C5: a two-section configuration runs to a snapshot whose
section and descriptor order, fields and `repo` values are preserved. -/
theorem C5_order_and_fields_preserved_witness :
    run_status netC4 "2024-06-01T00:00:00Z" configC5 = .ok snapC5 ∧
    ∃ sections : List JValue,
      snapC5 = .obj [("generated_at", .str "2024-06-01T00:00:00Z"),
        ("sections", .arr sections)] ∧
      sections.length = configC5.length ∧
      spec_sections_preserved configC5 sections = true :=
  ⟨by rfl,
    @C5_order_and_fields_preserved netC4 "2024-06-01T00:00:00Z" configC5 snapC5
      (by rfl)⟩

/-- C8: `fetch_last_release_info` returns absent (`None`) on a 404 and on
an empty release list; with a release present, the date is taken from
`published_at`, falling back to `created_at` when `published_at` is
missing/null. -/
theorem C8_release_absent_and_date_fallback :
    (∀ (user name : String) (body : JValue),
      fetch_last_release_info user name ⟨404, body⟩ = .ok .null) ∧
    (∀ (user name : String) (status : Nat),
      fetch_last_release_info user name ⟨status, .arr []⟩ = .ok .null) ∧
    (∀ (user name : String) (u t : JValue) (pub cre : String),
      pub.isEmpty = false →
      fetch_last_release_info user name
        ⟨200, .arr [.obj [("html_url", u), ("tag_name", t),
          ("published_at", .str pub), ("created_at", .str cre)]]⟩
      = .ok (.obj [("url", u), ("tag_name", t),
          ("date", .str (String.mk (pub.data.takeWhile (fun c => c ≠ 'T'))))])) ∧
    (∀ (user name : String) (u t : JValue) (cre : String),
      cre.isEmpty = false →
      fetch_last_release_info user name
        ⟨200, .arr [.obj [("html_url", u), ("tag_name", t),
          ("published_at", .null), ("created_at", .str cre)]]⟩
      = .ok (.obj [("url", u), ("tag_name", t),
          ("date", .str (String.mk (cre.data.takeWhile (fun c => c ≠ 'T'))))])) := by
  refine ⟨?_, ?_, ?_, ?_⟩
  · intro user name body
    rfl
  · intro user name status
    unfold fetch_last_release_info
    split <;> rfl
  · intro user name u t pub cre hp
    simp [fetch_last_release_info, JValue.pyGet, JValue.pyGetD, lookupJ,
      pyIndexZero, pyOr, JValue.truthy, format_date, hp]
  · intro user name u t cre hc
    simp [fetch_last_release_info, JValue.pyGet, JValue.pyGetD, lookupJ,
      pyIndexZero, pyOr, JValue.truthy, format_date, hc]

/-- Witness for C8 (spec scenario D plus the date fallback): an empty
release list yields absence; a draft release (null `published_at`) dates
from `created_at`. -/
theorem C8_release_absent_and_date_fallback_witness :
    fetch_last_release_info "o" "r" ⟨200, .arr []⟩ = .ok .null ∧
    ("2024-05-06T07:08:09Z" : String).isEmpty = false ∧
    fetch_last_release_info "o" "r"
      ⟨200, .arr [.obj [("html_url", .str "ru"), ("tag_name", .str "v1"),
        ("published_at", .null), ("created_at", .str "2024-05-06T07:08:09Z")]]⟩
    = .ok (.obj [("url", .str "ru"), ("tag_name", .str "v1"),
        ("date", .str (String.mk ("2024-05-06T07:08:09Z".data.takeWhile
          (fun c => c ≠ 'T'))))]) :=
  ⟨C8_release_absent_and_date_fallback.2.1 "o" "r" 200, by decide,
    C8_release_absent_and_date_fallback.2.2.2 "o" "r" (.str "ru") (.str "v1")
      "2024-05-06T07:08:09Z" (by decide)⟩

/-- The GraphQL response used to state C9: a fixed head commit whose author
block carries the given `user.login` and free-text `name`. -/
def commitBody (login nameV : JValue) : Response :=
  ⟨200, .obj [("data", .obj [("repository", .obj [("defaultBranchRef",
    .obj [("target", .obj [("oid", .str "abc"), ("commitUrl", .str "cu"),
      ("committedDate", .str "2024-01-02T03:04:05Z"),
      ("author", .obj [("user", .obj [("login", login)]), ("name", nameV)]),
      ("statusCheckRollup", .obj [("state", .str "SUCCESS")])])])])])]⟩

/-- C9: the commit record's `author` is the linked account's login when it
is truthy, and otherwise the free-text commit author name; in particular a
null login with name "Jane Doe" yields author "Jane Doe" (spec scenario
B). -/
theorem C9_author_prefers_login :
    (∀ (user name : String) (login nameV : JValue),
      fetch_last_commit_info user name (commitBody login nameV)
        = .ok (.obj [("url", .str "cu"), ("date", .str "2024-01-02"),
          ("author", if login.truthy then login else nameV),
          ("status", .str "SUCCESS"), ("sha", .str "abc")])) ∧
    fetch_last_commit_info "o" "r" (commitBody .null (.str "Jane Doe"))
      = .ok (.obj [("url", .str "cu"), ("date", .str "2024-01-02"),
        ("author", .str "Jane Doe"),
        ("status", .str "SUCCESS"), ("sha", .str "abc")]) := by
  constructor
  · intro user name login nameV
    rfl
  · rfl

/-- The page loop threads its accumulator through `collect_disabled`:
collecting into `acc` is collecting into `[]` and prepending `acc`. -/
theorem collect_disabled_acc (ws : List JValue) (acc : List JValue) :
    collect_disabled ws acc = (collect_disabled ws []).map (fun l => acc ++ l) := by
  induction ws generalizing acc with
  | nil => simp [collect_disabled, Except.map]
  | cons w rest ih =>
    simp only [collect_disabled]
    cases hs : w.pyGet "state" with
    | error e => simp [Except.map]
    | ok st =>
      simp only [except_bind_ok]
      cases hl : pyLower (pyOr st (.str "")) with
      | error e => simp [Except.map]
      | ok lowered =>
        simp only [except_bind_ok]
        by_cases hm : (lowered == "disabled_inactivity") = true
        · simp only [hm, if_true]
          cases hn : w.pyGet "name" with
          | error e => simp [Except.map]
          | ok nameV =>
            simp only [except_bind_ok]
            cases hp : w.pyGet "path" with
            | error e => simp [Except.map]
            | ok pathV =>
              simp only [except_bind_ok]
              cases hi : w.pyGet "id" with
              | error e => simp [Except.map]
              | ok idV =>
                simp only [except_bind_ok, List.nil_append]
                generalize pyOr (pyOr nameV pathV)
                  (.str (pyStr (pyOr idV (.str "")))) = label
                by_cases ht : label.truthy = true
                · simp only [ht, if_true]
                  rw [ih (acc ++ [label]), ih [label]]
                  cases hc : collect_disabled rest [] <;>
                    simp [Except.map, List.append_assoc]
                · simp only [Bool.not_eq_true] at ht
                  simp only [ht, Bool.false_eq_true, if_false]
                  rw [ih acc]
        · simp only [Bool.not_eq_true] at hm
          simp only [hm, Bool.false_eq_true, if_false]
          rw [ih acc]

/-- A 403/404 page response stops the loop, returning the accumulator. -/
theorem fetch_pages_stop_forbidden {st : Nat} (body : JValue)
    (rest : List Response) (acc : List JValue) (h : st = 403 ∨ st = 404) :
    fetch_disabled_pages (⟨st, body⟩ :: rest) acc = .ok acc := by
  rcases h with rfl | rfl <;> rfl

/-- A full ok page (100 workflow entries) is scanned and the loop moves on
to the next page with the labels appended to the accumulator. -/
theorem fetch_pages_full_step {ws : List JValue} {c : List JValue}
    (rest : List Response) (acc : List JValue)
    (hlen : ws.length = 100) (hc : collect_disabled ws [] = .ok c) :
    fetch_disabled_pages (⟨200, .obj [("workflows", .arr ws)]⟩ :: rest) acc
      = fetch_disabled_pages rest (acc ++ c) := by
  have hbody : pyOr (.obj [("workflows", .arr ws)]) (.obj [])
      = .obj [("workflows", .arr ws)] := by simp [pyOr, JValue.truthy]
  have hws : pyOr (.arr ws) (.arr []) = .arr ws := by
    cases ws <;> simp [pyOr, JValue.truthy]
  simp [fetch_disabled_pages, Response.ok, hbody, hws, JValue.pyGet,
    JValue.pyGetD, lookupJ, collect_disabled_acc ws acc, hc, Except.map, hlen]

/-- A short ok page (fewer than 100 entries) is scanned and the loop stops,
returning the accumulator plus this page's labels. -/
theorem fetch_pages_short_stop {ws : List JValue} (rest : List Response)
    (acc : List JValue) (hlen : ws.length < 100) :
    fetch_disabled_pages (⟨200, .obj [("workflows", .arr ws)]⟩ :: rest) acc
      = (collect_disabled ws []).map (fun l => acc ++ l) := by
  have hbody : pyOr (.obj [("workflows", .arr ws)]) (.obj [])
      = .obj [("workflows", .arr ws)] := by simp [pyOr, JValue.truthy]
  have hws : pyOr (.arr ws) (.arr []) = .arr ws := by
    cases ws <;> simp [pyOr, JValue.truthy]
  cases hc : collect_disabled ws [] with
  | error e =>
    simp [fetch_disabled_pages, Response.ok, hbody, hws, JValue.pyGet,
      JValue.pyGetD, lookupJ, collect_disabled_acc ws acc, hc, Except.map]
  | ok l =>
    simp [fetch_disabled_pages, Response.ok, hbody, hws, JValue.pyGet,
      JValue.pyGetD, lookupJ, collect_disabled_acc ws acc, hc, Except.map, hlen]

def pageFullC7 : Response :=
  ⟨200, .obj [("workflows", .arr (List.replicate 99 (.obj [("state", .str "active")])
    ++ [.obj [("state", .str "disabled_inactivity"), ("name", .str "wf")]]))]⟩

set_option maxRecDepth 8192 in
/-- Counterexample to C7 as stated: when a full first page has already
produced a label and the second page answers 403 (forbidden), the fetch
stops but returns the accumulated label — not an empty sequence. -/
theorem C7_counterexample :
    fetch_disabled_inactive_workflows "o" "r" [pageFullC7, ⟨403, .null⟩]
      = .ok [.str "wf"] ∧
    (⟨403, .null⟩ : Response).status_code = 403 ∧
    [JValue.str "wf"] ≠ ([] : List JValue) :=
  ⟨by rfl, rfl, by simp⟩

/-- C7 (amended): the loop pages through the workflow listing with page
size 100, collecting on every page the matching workflows — labelled by
name, else path, else `str` of the id, else skipped — matching the
`disabled_inactivity` token case-insensitively; it stops after the first
page with fewer than 100 entries, scanning and combining all pages up to
and including that one, and stops immediately on a forbidden or not-found
response, returning the labels accumulated from the earlier pages (an
empty sequence when the first page is forbidden/not-found). -/
theorem C7_pagination_and_labels :
    (∀ (user repo : String) (st : Nat) (body : JValue) (rest : List Response),
      st = 403 ∨ st = 404 →
      fetch_disabled_inactive_workflows user repo (⟨st, body⟩ :: rest) = .ok []) ∧
    (∀ (user repo : String) (ws1 c1 : List JValue) (st : Nat) (body : JValue)
      (rest : List Response),
      ws1.length = 100 → collect_disabled ws1 [] = .ok c1 → st = 403 ∨ st = 404 →
      fetch_disabled_inactive_workflows user repo
        (⟨200, .obj [("workflows", .arr ws1)]⟩ :: ⟨st, body⟩ :: rest) = .ok c1) ∧
    (∀ (user repo : String) (ws : List JValue) (rest : List Response),
      ws.length < 100 →
      fetch_disabled_inactive_workflows user repo
        (⟨200, .obj [("workflows", .arr ws)]⟩ :: rest) = collect_disabled ws []) ∧
    (∀ (user repo : String) (ws1 ws2 c1 c2 : List JValue) (rest : List Response),
      ws1.length = 100 → ws2.length < 100 →
      collect_disabled ws1 [] = .ok c1 → collect_disabled ws2 [] = .ok c2 →
      fetch_disabled_inactive_workflows user repo
        (⟨200, .obj [("workflows", .arr ws1)]⟩
          :: ⟨200, .obj [("workflows", .arr ws2)]⟩ :: rest) = .ok (c1 ++ c2)) ∧
    (∀ (st : String) (nameV pathV idV : JValue),
      pyLowerStr st = "disabled_inactivity" →
      collect_disabled
        [.obj [("state", .str st), ("name", nameV), ("path", pathV), ("id", idV)]] []
      = .ok (if (pyOr (pyOr nameV pathV)
            (.str (pyStr (pyOr idV (.str ""))))).truthy then
          [pyOr (pyOr nameV pathV) (.str (pyStr (pyOr idV (.str ""))))] else [])) ∧
    (∀ (st : String) (nameV pathV idV : JValue),
      pyLowerStr st ≠ "disabled_inactivity" →
      collect_disabled
        [.obj [("state", .str st), ("name", nameV), ("path", pathV), ("id", idV)]] []
      = .ok []) := by
  refine ⟨?_, ?_, ?_, ?_, ?_, ?_⟩
  · intro user repo st body rest h
    exact fetch_pages_stop_forbidden body rest [] h
  · intro user repo ws1 c1 st body rest hlen hc h
    unfold fetch_disabled_inactive_workflows
    rw [fetch_pages_full_step _ _ hlen hc, fetch_pages_stop_forbidden body rest _ h]
    simp
  · intro user repo ws rest hlen
    unfold fetch_disabled_inactive_workflows
    rw [fetch_pages_short_stop rest [] hlen]
    cases hc : collect_disabled ws [] <;> simp [Except.map]
  · intro user repo ws1 ws2 c1 c2 rest h1 h2 hc1 hc2
    unfold fetch_disabled_inactive_workflows
    rw [fetch_pages_full_step _ _ h1 hc1, fetch_pages_short_stop rest _ h2, hc2]
    simp [Except.map]
  · intro st nameV pathV idV hst
    have hpy : pyLower (pyOr (.str st) (.str "")) = .ok (pyLowerStr st) := by
      by_cases he : st.isEmpty
      · rw [(String.isEmpty_iff st).mp he]
        rfl
      · simp only [pyOr, JValue.truthy, he, Bool.not_false, if_true, pyLower]
    simp [collect_disabled, JValue.pyGet, JValue.pyGetD, lookupJ, hpy, hst]
  · intro st nameV pathV idV hst
    have hpy : pyLower (pyOr (.str st) (.str "")) = .ok (pyLowerStr st) := by
      by_cases he : st.isEmpty
      · rw [(String.isEmpty_iff st).mp he]
        rfl
      · simp only [pyOr, JValue.truthy, he, Bool.not_false, if_true, pyLower]
    simp [collect_disabled, JValue.pyGet, JValue.pyGetD, lookupJ, hpy, hst]

def wsFullC7 : List JValue :=
  List.replicate 99 (.obj [("state", .str "active")])
    ++ [.obj [("state", .str "disabled_inactivity"), ("name", .str "wf")]]

def wsShortC7 : List JValue :=
  [.obj [("state", .str "active")],
   .obj [("state", .str "DISABLED_INACTIVITY"), ("path", .str "p.yml")],
   .obj [("state", .str "active")]]

set_option maxRecDepth 8192 in
/-- Witness for the amended C7 (spec scenario C): a full page of 100
entries followed by a short page of 3 — both pages are scanned and their
labels combined (the second matching case-insensitively and labelled by
path for lack of a name) — and a first-page 404 yields an empty list. -/
theorem C7_pagination_and_labels_witness :
    fetch_disabled_inactive_workflows "o" "r"
      [⟨200, .obj [("workflows", .arr wsFullC7)]⟩,
       ⟨200, .obj [("workflows", .arr wsShortC7)]⟩]
      = .ok ([.str "wf"] ++ [.str "p.yml"]) ∧
    fetch_disabled_inactive_workflows "o" "r" [⟨404, .null⟩] = .ok [] :=
  ⟨C7_pagination_and_labels.2.2.2.1 "o" "r" wsFullC7 wsShortC7
      [.str "wf"] [.str "p.yml"] [] (by rfl) (by decide) (by rfl) (by rfl),
   C7_pagination_and_labels.1 "o" "r" 404 .null [] (Or.inr rfl)⟩

def respC10 : Response := ⟨500, .obj [("message", .str "Internal Server Error")]⟩

def netC10 : String → String → RepoNet :=
  fun _ _ => ⟨⟨200, .obj [("description", .str "d")]⟩, ⟨500, .null⟩, respC10,
    [⟨404, .null⟩]⟩

def configC10 : List JValue :=
  [.obj [("name", .str "sec"), ("packages", .arr [.obj [("repo", .str "a/b")]])]]

/-- C10: a 500 release response with a JSON-object body makes
`fetch_last_release_info` raise (`releases[0]` is a key lookup on a dict —
`KeyError`), and through the worker this single bad response aborts the
whole run: `run_status` yields the error, not a snapshot. -/
theorem C10_bad_release_response_aborts :
    respC10.ok = false ∧ respC10.status_code ≠ 404 ∧
    fetch_last_release_info "a" "b" respC10 = .error .keyError ∧
    run_status netC10 "T0" configC10 = .error .keyError ∧
    ∀ snap, run_status netC10 "T0" configC10 ≠ .ok snap :=
  have hrun : run_status netC10 "T0" configC10 = .error .keyError := by rfl
  ⟨by rfl, by decide, by rfl, hrun, fun snap h => by rw [hrun] at h; cases h⟩
